import Mathlib

/-!
Verification model of the embed_chat_agent repository's Realtime Voice
Session Engine.  Three components are shallowly embedded from the source:

* `AudioWorklet` — `src/lib/audio-worklet-processor.ts`
  (`PCMDownsamplerProcessor.process`) and the decode step of
  `AudioManager.playAudioData`.  JS floating point is modelled with exact
  rationals (the quantities involved — divisions by powers of two, small
  integer products — are exactly representable in doubles, so the rational
  model agrees with the float computation on the inputs used here).  A JS
  read past the end of a `Float32Array` yields `undefined`, which
  propagates to `NaN` through arithmetic; that is modelled as `none`.

* `RTC` — `RealtimeAPIClient` (the websocket protocol state machine).
  The counters, flags and `AgentState` are carried in an explicit record;
  each method returns the successor state together with the list of
  messages sent on the socket and the list of events emitted to
  subscribers.  `console.log`/`console.warn` output is not modelled.

* `MCP` — `src/lib/mcp-normalizer.ts` (argument reconciliation).  JS
  values are modelled by the inductive `JValue`; JS objects are
  insertion-ordered association lists with update-in-place assignment
  semantics.  Diagnostic `logs` entries are not modelled (they are only
  printed, never consumed).  String handling is ASCII-scoped, matching
  the ASCII regexes of the source.
-/

namespace AudioWorklet

/-- Clamp to [-1, 1]: `Math.max(-1, Math.min(1, x))`. -/
def clamp1 (x : ℚ) : ℚ := max (-1) (min 1 x)

/-- JS ToInteger: truncation toward zero of a rational. -/
def ratTrunc (q : ℚ) : ℤ := if 0 ≤ q then ⌊q⌋ else -⌊-q⌋

/-- JS ToInt16 (what storing into an `Int16Array` does): truncate toward
zero, then wrap into the signed 16-bit range. -/
def toInt16 (q : ℚ) : ℤ := (ratTrunc q + 32768) % 65536 - 32768

/-- One output sample of the quantization loop in
`PCMDownsamplerProcessor.process`:
`s = Math.max(-1, Math.min(1, x)); pcm[i] = s < 0 ? s * 0x8000 : s * 0x7fff`. -/
def quantizeSample (x : ℚ) : ℤ :=
  let s := clamp1 x
  toInt16 (if s < 0 then s * 32768 else s * 32767)

/-- The decode step of `AudioManager.playAudioData`:
`float32Array[i] = int16Array[i] / 32768.0`. -/
def decodeSample (v : ℤ) : ℚ := (v : ℚ) / 32768

/-- Decode a 16-bit sample to float and re-encode it (the round trip of
claim C7). -/
def roundTrip (v : ℤ) : ℤ := quantizeSample (decodeSample v)

/-- `output[i]` of the linear-resampling loop:
`sourcePos = i * ratio + phase; index = floor(sourcePos);
frac = sourcePos - index; nextIndex = min(index + 1, input.length - 1);
output[i] = input[index] * (1 - frac) + input[nextIndex] * frac`.
Reading `input[index]` past the end yields `undefined`/NaN, modelled as
`none` (all positions used in this file are nonnegative). -/
def interpAt (input : List ℚ) (r phase : ℚ) (i : ℕ) : Option ℚ :=
  let pos := (i : ℚ) * r + phase
  let idx := ⌊pos⌋
  let frac := pos - (idx : ℚ)
  let nxt := min (idx + 1) ((input.length : ℤ) - 1)
  match input.get? idx.toNat, input.get? nxt.toNat with
  | some a, some b => some (a * (1 - frac) + b * frac)
  | _, _ => none

/-- `outLength = Math.floor((input.length + this.phase) / this.sampleRateRatio)`. -/
def outLen (r phase : ℚ) (L : ℕ) : ℕ := (⌊((L : ℚ) + phase) / r⌋).toNat

/-- One call of `PCMDownsamplerProcessor.process` restricted to the
resampling stage (before quantization): returns the resampled block and
the carried phase.  Empty input returns immediately; ratio 1 passes the
input through untouched; otherwise the output has `outLen` samples and
`phase` becomes `(L + phase) - outLength * ratio`. -/
def resampleBlock (r phase : ℚ) (input : List ℚ) : List (Option ℚ) × ℚ :=
  if input.length = 0 then ([], phase)
  else if r = 1 then (input.map some, phase)
  else
    let n := outLen r phase input.length
    ((List.range n).map (interpAt input r phase),
     ((input.length : ℚ) + phase) - (n : ℚ) * r)

/-- Feeding a sequence of blocks through `process`, carrying the phase
across calls, concatenating the resampled outputs. -/
def resampleChunks (r : ℚ) (phase : ℚ) : List (List ℚ) → List (Option ℚ) × ℚ
  | [] => ([], phase)
  | b :: bs =>
    let o := resampleBlock r phase b
    let os := resampleChunks r o.2 bs
    (o.1 ++ os.1, os.2)

/-- Full `process` for one block: resample then quantize to PCM16. -/
def processBlock (r phase : ℚ) (input : List ℚ) : List (Option ℤ) × ℚ :=
  let o := resampleBlock r phase input
  (o.1.map (Option.map quantizeSample), o.2)

/-- The 9-sample ramp signal 0,1,...,8 used as the C6 failing input. -/
def ramp9 : List ℚ := [0, 1, 2, 3, 4, 5, 6, 7, 8]

end AudioWorklet

namespace RTC

/-- `AgentState` from the client module. -/
inductive AgentSt
  | idle
  | listening
  | speaking
  | thinking
  | interrupted
deriving DecidableEq, Repr

/-- Speaker role carried by transcript events. -/
inductive Role
  | user
  | assistant
deriving DecidableEq, Repr

/-- `rag_mode` values from `RealtimeConfig` (`types/voice-agent.ts`). -/
inductive RagMode
  | assist
  | guardrail
deriving DecidableEq, Repr

/-- The server-VAD turn-detection record sent in `session.update`. -/
structure TurnDetection where
  threshold : ℚ
  padMs : ℕ
  silenceMs : ℕ
deriving DecidableEq, Repr

/-- The fields of `RealtimeConfig` the client reads.  Tool schemas are
treated as opaque identifiers (`String`), since only the list itself is
relevant to the claims. -/
structure RealtimeConfig where
  model : String
  voice : String
  instructions : String
  temperature : ℚ
  maxRespTokens : ℕ
  turnDetection : Option TurnDetection
  ragMode : Option RagMode
deriving DecidableEq, Repr

/-- The payload of the `session.update` message built by
`sendSessionUpdate` (constant fields such as the modalities and audio
formats are omitted; they carry no claim content). -/
structure SessionPayload where
  instructions : String
  voice : String
  transcriptionModel : String
  transcriptionLanguage : String
  turnDetection : TurnDetection
  tools : List String
  temperature : ℚ
  maxRespTokens : ℕ
deriving DecidableEq, Repr

/-- Messages the client sends on the websocket. -/
inductive OutMsg
  | sessionUpdate (payload : SessionPayload)
  | inputClear
  | inputAppend (samples : ℕ)
  | inputCommit
  | itemCreateFunctionOutput (callId : String)
  | itemCreateSystem (text : String)
  | responseCreate
  | responseCancel
deriving DecidableEq, Repr

/-- Events the client emits to its subscribers (`RealtimeEvent`). -/
inductive REvent
  | connectedEv
  | disconnectedEv (reason : String)
  | errorEv (message : String)
  | agentStateEv (state : AgentSt) (reason : Option String)
  | audioDeltaEv (delta : String)
  | audioDoneEv
  | transcriptDeltaEv (role : Role) (delta : String)
  | transcriptDoneEv (role : Role) (transcript : String)
  | transcriptResetEv (role : Role)
  | responseCreatedEv
  | responseDoneEv
  | interruptionEv
  | functionCallEv (callId : String) (name : String) (args : String)
  | itemCreatedEv
  | sessionUpdatedEv
deriving DecidableEq, Repr

/-- The mutable fields of `RealtimeAPIClient`.  `wsOpen` models
`ws !== null && ws.readyState === OPEN` (the `send` guard);
`activeResponseCount` is an integer so that the `Math.max(0, ...)`
clamping is meaningful. -/
structure Client where
  wsOpen : Bool
  config : RealtimeConfig
  reconnectAttempts : ℕ
  agentState : AgentSt
  intentionalClose : Bool
  hasBufferedAudio : Bool
  bufferedSamples : ℕ
  hasReceivedAudio : Bool
  sessionUpdateSent : Bool
  pendingClear : Bool
  overrideTools : Option (List String)
  activeResponseCount : ℤ
  cancelPending : Bool
  allowInterruptions : Bool
deriving DecidableEq, Repr

/-- Result of one client operation: successor state, messages sent on
the socket, events emitted to subscribers. -/
structure StepOut where
  c : Client
  msgs : List OutMsg
  evs : List REvent
deriving DecidableEq, Repr

/-- `maxReconnectAttempts = 5`. -/
def maxReconnectAttempts : ℕ := 5

/-- `reconnectDelay = 1000` (ms). -/
def reconnectDelayMs : ℕ := 1000

/-- `send`: delivered only when the socket is open, else dropped with a
console warning. -/
def send (s : Client) (m : OutMsg) : List OutMsg :=
  if s.wsOpen then [m] else []

/-- `setAgentState`: skips when the state is unchanged and no reason is
given, otherwise records the state and emits `agent_state`. -/
def setAgentState (s : Client) (st : AgentSt) (reason : Option String) :
    Client × List REvent :=
  if s.agentState = st ∧ reason = none then (s, [])
  else ({ s with agentState := st }, [REvent.agentStateEv st reason])

/-- The fixed language-consistency directive appended to every
instruction string. -/
def languageGuard : String :=
  "Always respond in English unless the user explicitly requests a different language."

/-- The fixed fallback-refusal directive inserted when
`rag_mode === 'guardrail'`. -/
def guardrailDirective : String :=
  "If relevant knowledge from the approved knowledge base is unavailable, respond with \"I do not have enough knowledge to answer that yet.\""

/-- The `ragInstructions` computation of `sendSessionUpdate`. -/
def augmentInstructions (cfg : RealtimeConfig) : String :=
  if cfg.ragMode = some RagMode.guardrail then
    cfg.instructions ++ "\n\n" ++ guardrailDirective ++ "\n\n" ++ languageGuard
  else
    cfg.instructions ++ "\n\n" ++ languageGuard

/-- The default `turn_detection` used when the config does not provide
one: `server_vad`, threshold 0.75, prefix padding 150 ms, silence 700 ms. -/
def defaultTurnDetection : TurnDetection :=
  { threshold := 3 / 4, padMs := 150, silenceMs := 700 }

/-- The `session.update` payload assembled by `sendSessionUpdate`;
`tools` is `overrideTools ?? getToolSchemas()`, passed in by the caller. -/
def mkSessionPayload (cfg : RealtimeConfig) (tools : List String) : SessionPayload :=
  { instructions := augmentInstructions cfg
    voice := cfg.voice
    transcriptionModel := "gpt-4o-transcribe"
    transcriptionLanguage := "en"
    turnDetection := cfg.turnDetection.getD defaultTurnDetection
    tools := tools
    temperature := cfg.temperature
    maxRespTokens := cfg.maxRespTokens }

/-- `sendSessionUpdate` (`registry` models the module-level
`getToolSchemas()` result): a duplicate call on the same connection is a
logged no-op; otherwise the payload is sent and the once-per-connection
flag is set. -/
def sendSessionUpdate (registry : List String) (s : Client) : StepOut :=
  if s.sessionUpdateSent then ⟨s, [], []⟩
  else
    let payload := mkSessionPayload s.config (s.overrideTools.getD registry)
    ⟨{ s with sessionUpdateSent := true }, send s (OutMsg.sessionUpdate payload), []⟩

/-- The state reset performed at the top of `connect()`. -/
def connectReset (s : Client) : Client :=
  { s with
    intentionalClose := false
    sessionUpdateSent := false
    pendingClear := true
    hasReceivedAudio := false
    hasBufferedAudio := false
    bufferedSamples := 0
    activeResponseCount := 0
    cancelPending := false }

/-- `ws.onopen`: the socket is now open, the attempt counter resets, a
`connected` event is emitted and the session configuration is sent. -/
def handleOpen (registry : List String) (s : Client) : StepOut :=
  let s1 := { s with wsOpen := true, reconnectAttempts := 0 }
  let su := sendSessionUpdate registry s1
  ⟨su.c, su.msgs, REvent.connectedEv :: su.evs⟩

/-- `attemptReconnect`: below the cap, increments the attempt counter and
schedules a retry after `reconnectDelay * 2 ^ (attempts - 1)` ms; at the
cap it only logs and schedules nothing. -/
def attemptReconnect (s : Client) : Client × Option ℕ :=
  if maxReconnectAttempts ≤ s.reconnectAttempts then (s, none)
  else
    let attempts := s.reconnectAttempts + 1
    ({ s with reconnectAttempts := attempts },
     some (reconnectDelayMs * 2 ^ (attempts - 1)))

/-- Result of `ws.onclose`: successor state, emitted events, and the
scheduled reconnect delay (`none` when no retry is scheduled). -/
structure CloseOut where
  c : Client
  evs : List REvent
  retryDelayMs : Option ℕ
deriving DecidableEq, Repr

/-- `ws.onclose`: emits `disconnected`, forces `idle`, and — only when
the close was not intentional and the attempt cap is not reached —
schedules a reconnect via `attemptReconnect`. -/
def handleClose (reason : String) (s : Client) : CloseOut :=
  let s0 := { s with wsOpen := false }
  let st := setAgentState s0 AgentSt.idle (some "socket-closed")
  let evs := REvent.disconnectedEv reason :: st.2
  if st.1.intentionalClose = false ∧ st.1.reconnectAttempts < maxReconnectAttempts then
    let ar := attemptReconnect st.1
    ⟨ar.1, evs, ar.2⟩
  else ⟨st.1, evs, none⟩

/-- `sendAudio`: dropped when the socket is not open; otherwise a pending
clear is flushed first (resetting the audio counters and sending
`input_audio_buffer.clear` exactly once), then the frame is appended and
the counters updated. -/
def sendAudio (s : Client) (samples : ℕ) : StepOut :=
  if s.wsOpen = false then ⟨s, [], []⟩
  else
    let cleared :=
      if s.pendingClear then
        ({ s with hasBufferedAudio := false, bufferedSamples := 0,
                  hasReceivedAudio := false, pendingClear := false },
         [OutMsg.inputClear])
      else (s, [])
    let s1 := cleared.1
    ⟨{ s1 with hasBufferedAudio := true,
               bufferedSamples := s1.bufferedSamples + samples,
               hasReceivedAudio := true },
     cleared.2 ++ [OutMsg.inputAppend samples], []⟩

/-- `commitAudio`: the commit is skipped (logged) unless audio has been
buffered, at least 2400 samples are pending, and audio has been received
since the last clear; a valid commit sends
`input_audio_buffer.commit` and resets the counters. -/
def commitAudio (s : Client) : StepOut :=
  if s.hasBufferedAudio = false ∨ s.bufferedSamples < 2400 ∨ s.hasReceivedAudio = false then
    ⟨s, [], []⟩
  else
    ⟨{ s with hasBufferedAudio := false, bufferedSamples := 0, hasReceivedAudio := false },
     send s OutMsg.inputCommit, []⟩

/-- `clearAudioBuffer`. -/
def clearAudioBuffer (s : Client) : StepOut :=
  ⟨{ s with hasBufferedAudio := false, bufferedSamples := 0,
            hasReceivedAudio := false, pendingClear := false },
   send s OutMsg.inputClear, []⟩

/-- `markResponseCreated`: `Math.max(0, count) + 1`. -/
def markResponseCreated (s : Client) : Client :=
  { s with activeResponseCount := max 0 s.activeResponseCount + 1 }

/-- `markResponseFinished`: `Math.max(0, count - 1)`, and the pending
cancel flag is cleared. -/
def markResponseFinished (s : Client) : Client :=
  { s with activeResponseCount := max 0 (s.activeResponseCount - 1),
           cancelPending := false }

/-- `cancelResponse`: a no-op when no response is active or a cancel is
already pending; otherwise resets the audio counters, marks the cancel
pending, sends `response.cancel`, and (unless suppressed) forces the
`interrupted` state. -/
def cancelResponse (suppressState : Bool) (s : Client) : StepOut :=
  if s.activeResponseCount ≤ 0 then ⟨s, [], []⟩
  else if s.cancelPending then ⟨s, [], []⟩
  else
    let s1 := { s with hasBufferedAudio := false, bufferedSamples := 0,
                       hasReceivedAudio := false, pendingClear := true,
                       cancelPending := true }
    let msgs := send s1 OutMsg.responseCancel
    if suppressState then ⟨s1, msgs, []⟩
    else
      let st := setAgentState s1 AgentSt.interrupted none
      ⟨st.1, msgs, st.2⟩

/-- `requestResponse`. -/
def requestResponse (s : Client) : StepOut :=
  ⟨s, send s OutMsg.responseCreate, []⟩

/-- `sendFunctionCallOutput`: the serialized result followed by an
explicit `response.create`. -/
def sendFunctionCallOutput (s : Client) (callId : String) : StepOut :=
  ⟨s, send s (OutMsg.itemCreateFunctionOutput callId) ++ send s OutMsg.responseCreate, []⟩

/-- `updateSessionConfig`: swaps the config and, when connected,
re-invokes `sendSessionUpdate` (which is a no-op if the configuration
was already sent on this connection). -/
def updateSessionConfig (registry : List String) (cfg : RealtimeConfig) (s : Client) : StepOut :=
  let s1 := { s with config := cfg }
  if s1.wsOpen then sendSessionUpdate registry s1 else ⟨s1, [], []⟩

/-- Inbound server messages (the cases of `handleServerMessage` that
touch state or emit events; payload strings are carried opaquely). -/
inductive ServerMsg
  | sessionCreated
  | sessionUpdated
  | speechStarted
  | speechStopped
  | committed
  | cleared
  | inputTransDelta (delta : String)
  | inputTransDone (transcript : String)
  | responseCreated
  | audioDelta (delta : String)
  | audioDone
  | outTransDelta (delta : String)
  | outTransDone (transcript : String)
  | functionCallDone (callId : String) (name : String) (args : String)
  | responseInterrupted
  | responseDone
  | itemCreated
  | rateLimits
  | errorMsg (message : String)
  | unknown
deriving DecidableEq, Repr

/-- `handleServerMessage`, case by case from the source switch. -/
def handleServerMessage (s : Client) (m : ServerMsg) : StepOut :=
  match m with
  | ServerMsg.sessionCreated => ⟨s, [], []⟩
  | ServerMsg.sessionUpdated => ⟨s, [], [REvent.sessionUpdatedEv]⟩
  | ServerMsg.speechStarted =>
    let s1 := { s with bufferedSamples := 0, hasBufferedAudio := false,
                       hasReceivedAudio := false, pendingClear := true }
    let cancelPart :=
      if s1.agentState = AgentSt.speaking ∧ s1.allowInterruptions then
        let co := cancelResponse false s1
        (co.c, co.msgs, co.evs ++ [REvent.interruptionEv])
      else (s1, [], [])
    let s2 := cancelPart.1
    let st := setAgentState s2 AgentSt.listening none
    ⟨st.1, cancelPart.2.1,
     cancelPart.2.2 ++ [REvent.transcriptResetEv Role.user] ++ st.2⟩
  | ServerMsg.speechStopped =>
    let s1 := { s with pendingClear := true, hasBufferedAudio := false,
                       hasReceivedAudio := false, bufferedSamples := 0 }
    let st := setAgentState s1 AgentSt.thinking none
    ⟨st.1, [], st.2⟩
  | ServerMsg.committed => ⟨s, [], []⟩
  | ServerMsg.cleared =>
    ⟨{ s with hasBufferedAudio := false, hasReceivedAudio := false,
              bufferedSamples := 0, pendingClear := false }, [], []⟩
  | ServerMsg.inputTransDelta d => ⟨s, [], [REvent.transcriptDeltaEv Role.user d]⟩
  | ServerMsg.inputTransDone t => ⟨s, [], [REvent.transcriptDoneEv Role.user t]⟩
  | ServerMsg.responseCreated =>
    let s1 := markResponseCreated s
    let st := setAgentState s1 AgentSt.thinking none
    ⟨st.1, [], st.2 ++ [REvent.responseCreatedEv]⟩
  | ServerMsg.audioDelta d =>
    let st := setAgentState s AgentSt.speaking none
    ⟨st.1, [], st.2 ++ [REvent.audioDeltaEv d]⟩
  | ServerMsg.audioDone => ⟨s, [], [REvent.audioDoneEv]⟩
  | ServerMsg.outTransDelta d => ⟨s, [], [REvent.transcriptDeltaEv Role.assistant d]⟩
  | ServerMsg.outTransDone t => ⟨s, [], [REvent.transcriptDoneEv Role.assistant t]⟩
  | ServerMsg.functionCallDone i n a => ⟨s, [], [REvent.functionCallEv i n a]⟩
  | ServerMsg.responseInterrupted =>
    let s1 := markResponseFinished s
    let st := setAgentState s1 AgentSt.interrupted none
    ⟨{ st.1 with hasBufferedAudio := false, bufferedSamples := 0 }, [],
     st.2 ++ [REvent.interruptionEv]⟩
  | ServerMsg.responseDone =>
    let s1 := markResponseFinished s
    let st := setAgentState s1 AgentSt.idle none
    ⟨st.1, [], st.2 ++ [REvent.responseDoneEv]⟩
  | ServerMsg.itemCreated => ⟨s, [], [REvent.itemCreatedEv]⟩
  | ServerMsg.rateLimits => ⟨s, [], []⟩
  | ServerMsg.errorMsg e => ⟨s, [], [REvent.errorEv e]⟩
  | ServerMsg.unknown => ⟨s, [], []⟩

/-- `disconnect()`: records the intentional close, resets all turn,
response and audio bookkeeping, closes the socket and clears handlers. -/
def disconnect (s : Client) : Client :=
  { s with intentionalClose := true, sessionUpdateSent := false,
           pendingClear := true, hasReceivedAudio := false,
           hasBufferedAudio := false, bufferedSamples := 0,
           activeResponseCount := 0, cancelPending := false,
           wsOpen := false, agentState := AgentSt.idle }

/-- The client-side operations and server deliveries that can occur on
one physical connection (connection open/close are modelled separately
by `handleOpen`/`handleClose`). -/
inductive Action
  | sendAudioAct (samples : ℕ)
  | commitAudioAct
  | clearAudioAct
  | cancelAct (suppressState : Bool)
  | requestResponseAct
  | sendFunctionOutputAct (callId : String)
  | sendSessionUpdateAct
  | updateSessionConfigAct (cfg : RealtimeConfig)
  | serverAct (m : ServerMsg)
deriving DecidableEq, Repr

/-- Dispatch one action. -/
def step (registry : List String) (s : Client) : Action → StepOut
  | Action.sendAudioAct n => sendAudio s n
  | Action.commitAudioAct => commitAudio s
  | Action.clearAudioAct => clearAudioBuffer s
  | Action.cancelAct b => cancelResponse b s
  | Action.requestResponseAct => requestResponse s
  | Action.sendFunctionOutputAct i => sendFunctionCallOutput s i
  | Action.sendSessionUpdateAct => sendSessionUpdate registry s
  | Action.updateSessionConfigAct cfg => updateSessionConfig registry cfg s
  | Action.serverAct m => handleServerMessage s m

/-- Run a sequence of actions, concatenating sent messages and emitted
events. -/
def run (registry : List String) (s : Client) : List Action → StepOut
  | [] => ⟨s, [], []⟩
  | a :: rest =>
    let o := step registry s a
    let r := run registry o.c rest
    ⟨r.c, o.msgs ++ r.msgs, o.evs ++ r.evs⟩

/-- Recognizers used for counting particular outputs. -/
def isSessionUpdateMsg : OutMsg → Bool
  | OutMsg.sessionUpdate _ => true
  | _ => false

def isCommitMsg : OutMsg → Bool
  | OutMsg.inputCommit => true
  | _ => false

def isCancelMsg : OutMsg → Bool
  | OutMsg.responseCancel => true
  | _ => false

def isErrorEv : REvent → Bool
  | REvent.errorEv _ => true
  | _ => false

/-- Samples an action appends. -/
def appendSize : Action → ℕ
  | Action.sendAudioAct n => n
  | _ => 0

/-- Number of samples appended over a list of actions. -/
def appendTotal : List Action → ℕ
  | [] => 0
  | a :: rest => appendSize a + appendTotal rest

/-- The `useVoiceEmbed` subscriber stops local playback exactly when an
`agent_state` event with state `listening` arrives
(`client.on('agent_state', ...)` calls `audioManager.stopPlayback()`).
This predicate holds of an event list that triggers that handler. -/
def uiStopsPlayback (evs : List REvent) : Bool :=
  evs.any fun e =>
    match e with
    | REvent.agentStateEv AgentSt.listening _ => true
    | _ => false

/-- A fresh client as built by the constructor, before `connect()`. -/
def mkClient (cfg : RealtimeConfig) (allow : Bool) (tools : Option (List String)) : Client :=
  { wsOpen := false, config := cfg, reconnectAttempts := 0,
    agentState := AgentSt.idle, intentionalClose := false,
    hasBufferedAudio := false, bufferedSamples := 0,
    hasReceivedAudio := false, sessionUpdateSent := false,
    pendingClear := true, overrideTools := tools,
    activeResponseCount := 0, cancelPending := false,
    allowInterruptions := allow }

/-- A small concrete configuration used by witnesses and counterexamples. -/
def cfgX : RealtimeConfig :=
  { model := "gpt-realtime", voice := "alloy", instructions := "Be helpful.",
    temperature := 1, maxRespTokens := 4096, turnDetection := none,
    ragMode := none }

/-- A connected client on a fresh connection (after `connect()` resolved). -/
def connectedX : Client := (handleOpen [] (connectReset (mkClient cfgX true none))).c

end RTC

namespace MCP

/-! ### ASCII string utilities

The source's string handling (`toLowerCase`, `trim`, `split`,
`includes`, regexes over `[a-z0-9]`, `[-_.]`, `\s`) is ASCII-scoped;
these helpers implement exactly those operations over the character
lists underlying `String`. -/

/-- ASCII `toLowerCase` for one character. -/
def lowerChar (c : Char) : Char :=
  if 65 ≤ c.toNat ∧ c.toNat ≤ 90 then Char.ofNat (c.toNat + 32) else c

/-- `String.prototype.toLowerCase` (ASCII scope). -/
def toLowerStr (s : String) : String := String.mk (s.data.map lowerChar)

/-- Characters kept by the `[^a-z0-9]` strip after lowercasing. -/
def isLowerAlnum (c : Char) : Bool :=
  decide (('a' ≤ c ∧ c ≤ 'z') ∨ ('0' ≤ c ∧ c ≤ '9'))

/-- `normalizeFieldName`: lowercase, remove non-alphanumerics. -/
def normalizeFieldName (name : String) : String :=
  String.mk ((toLowerStr name).data.filter isLowerAlnum)

/-- `String.prototype.trim`. -/
def strTrim (s : String) : String :=
  String.mk (((s.data.dropWhile Char.isWhitespace).reverse.dropWhile
    Char.isWhitespace).reverse)

/-- Split a character list at every character satisfying `p`, keeping
empty segments — the semantics of `split(/[c...]/)` on a single-character
class. -/
def splitChars (p : Char → Bool) : List Char → List (List Char)
  | [] => [[]]
  | c :: rest =>
    match splitChars p rest with
    | [] => [[]]
    | seg :: segs => if p c then [] :: seg :: segs else (c :: seg) :: segs

/-- String-level split on a character predicate. -/
def splitStr (p : Char → Bool) (s : String) : List String :=
  (splitChars p s.data).map String.mk

/-- `needle` occurs at the head of `hay`. -/
def startsWithChars : List Char → List Char → Bool
  | _, [] => true
  | [], _ :: _ => false
  | h :: hs, n :: ns => h = n && startsWithChars hs ns

/-- Substring scan for `String.prototype.includes`. -/
def hasSubChars (needle : List Char) : List Char → Bool
  | [] => startsWithChars [] needle
  | c :: rest => startsWithChars (c :: rest) needle || hasSubChars needle rest

/-- `hay.includes(needle)`. -/
def hasSubstr (hay needle : String) : Bool := hasSubChars needle.data hay.data

/-- `String.prototype.join` helper. -/
def strIntercalate (sep : String) : List String → String
  | [] => ""
  | [x] => x
  | x :: xs => x ++ sep ++ strIntercalate sep xs

/-- First-occurrence deduplication — the order `Array.from(new Set(xs))`
produces. -/
def dedupFirst (seen : List String) : List String → List String
  | [] => []
  | x :: xs =>
    if x ∈ seen then dedupFirst seen xs
    else x :: dedupFirst (x :: seen) xs

/-- The `replace(/[-_.]/g, " ")` step of `tokenize`. -/
def dashToSpace (c : Char) : Char :=
  if c = '-' ∨ c = '_' ∨ c = '.' then ' ' else c

/-- The `replace(/([a-z])([A-Z])/g, "$1 $2")` camel-case splitting step
(non-overlapping, left to right, as the global regex behaves). -/
def camelSplitChars : List Char → List Char
  | [] => []
  | [c] => [c]
  | a :: b :: rest =>
    if a.isLower ∧ b.isUpper then a :: ' ' :: b :: camelSplitChars rest
    else a :: camelSplitChars (b :: rest)

/-- `tokenize`: dashes/underscores/dots to spaces, split camelCase,
lowercase, split on whitespace, drop empty tokens. -/
def tokenize (name : String) : List String :=
  (((splitChars Char.isWhitespace
      ((camelSplitChars (name.data.map dashToSpace)).map lowerChar)).map
    String.mk).filter (fun t => t ≠ ""))

/-- `tokenSimilarity`: Jaccard index over the two token sets. -/
def tokenSimilarity (a b : String) : ℚ :=
  let ta := dedupFirst [] (tokenize a)
  let tb := dedupFirst [] (tokenize b)
  if ta.length = 0 ∨ tb.length = 0 then 0
  else
    let inter := (ta.filter tb.contains).length
    let union := ta.length + tb.length - inter
    (inter : ℚ) / (union : ℚ)

/-- `globalConceptSynonyms`, in source order. -/
def globalConceptSynonyms : List (String × List String) :=
  [("recipient_email", ["to", "email", "recipient", "recipient_email", "mail_to", "send_to", "address"]),
   ("cc", ["cc", "carbon_copy", "copy"]),
   ("bcc", ["bcc", "blind_copy"]),
   ("subject", ["subject", "title", "topic", "headline"]),
   ("body", ["body", "message", "msg", "content", "text"]),
   ("query", ["q", "query", "search", "keyword", "term"]),
   ("url", ["url", "link", "href", "address", "endpoint"]),
   ("amount", ["amount", "value", "total", "price"]),
   ("date", ["date", "when", "day"]),
   ("phone", ["phone", "phone_number", "mobile", "cell"])]

/-- Lookup in the synonym table. -/
def synonymsFor (concept : String) : Option (List String) :=
  (globalConceptSynonyms.find? (fun e => e.1 == concept)).map (fun e => e.2)

/-- `guessConceptForSchemaKey`, the `includes` cascade in source order. -/
def guessConceptForSchemaKey (schemaKey : String) : Option String :=
  let key := toLowerStr schemaKey
  if hasSubstr key "bcc" then some "bcc"
  else if hasSubstr key "cc" then some "cc"
  else if hasSubstr key "email" then some "recipient_email"
  else if key = "to" ∨ hasSubstr key "recipient" then some "recipient_email"
  else if hasSubstr key "subject" ∨ hasSubstr key "title" then some "subject"
  else if hasSubstr key "body" ∨ hasSubstr key "message" ∨ hasSubstr key "content" then some "body"
  else if hasSubstr key "query" ∨ hasSubstr key "search" then some "query"
  else if hasSubstr key "url" ∨ hasSubstr key "link" then some "url"
  else if hasSubstr key "amount" ∨ hasSubstr key "total" ∨ hasSubstr key "price" then some "amount"
  else if hasSubstr key "date" ∨ hasSubstr key "day" then some "date"
  else if hasSubstr key "phone" ∨ hasSubstr key "mobile" then some "phone"
  else none

/-- `isRecipientField`. -/
def isRecipientField (schemaKey : String) : Bool :=
  let n := normalizeFieldName schemaKey
  ["recipient", "recipientemail", "email", "to", "bcc", "cc"].any
    (fun t => hasSubstr n t)

/-! ### The JS value model

`JValue` models the JSON-ish values flowing through the normalizer.
`null` stands for both JS `null` and `undefined` (the source treats them
identically everywhere it matters).  Objects are insertion-ordered
association lists; mutual inductives are used so that every traversal is
structurally recursive. -/

mutual
inductive JValue where
  | null
  | bool (b : Bool)
  | num (q : ℚ)
  | str (s : String)
  | arr (xs : JList)
  | obj (fields : JObj)
deriving DecidableEq

inductive JList where
  | nil
  | cons (hd : JValue) (tl : JList)
deriving DecidableEq

inductive JObj where
  | nil
  | cons (key : String) (val : JValue) (tl : JObj)
deriving DecidableEq
end

def JList.toList : JList → List JValue
  | JList.nil => []
  | JList.cons h t => h :: t.toList

def JList.ofList : List JValue → JList
  | [] => JList.nil
  | h :: t => JList.cons h (JList.ofList t)

def JList.len : JList → ℕ
  | JList.nil => 0
  | JList.cons _ t => t.len + 1

def JObj.toList : JObj → List (String × JValue)
  | JObj.nil => []
  | JObj.cons k v t => (k, v) :: t.toList

def JObj.ofList : List (String × JValue) → JObj
  | [] => JObj.nil
  | (k, v) :: t => JObj.cons k v (JObj.ofList t)

def JObj.len : JObj → ℕ
  | JObj.nil => 0
  | JObj.cons _ _ t => t.len + 1

/-- Association-list fields of a JS object. -/
abbrev JFields := List (String × JValue)

/-- Object construction helper for concrete inputs. -/
def jobj (l : JFields) : JValue := JValue.obj (JObj.ofList l)

/-- Array construction helper for concrete inputs. -/
def jarr (l : List JValue) : JValue := JValue.arr (JList.ofList l)

/-- Property read `o[k]` (first binding). -/
def jsGet : JFields → String → Option JValue
  | [], _ => none
  | (k, v) :: rest, key => if k = key then some v else jsGet rest key

/-- Property read with a default for absent keys. -/
def jsGetD (fields : JFields) (key : String) (dflt : JValue) : JValue :=
  (jsGet fields key).getD dflt

/-- `key in o`. -/
def jsHasKey (fields : JFields) (key : String) : Bool :=
  (jsGet fields key).isSome

/-- Property assignment `o[k] = v`: update in place, else append. -/
def jsSet : JFields → String → JValue → JFields
  | [], key, v => [(key, v)]
  | (k, w) :: rest, key, v =>
    if k = key then (k, v) :: rest else (k, w) :: jsSet rest key v

/-- Spread `{...base, ...extra}` as a sequence of assignments. -/
def jsSpreadOnto (base : JFields) : JFields → JFields
  | [] => base
  | (k, v) :: rest => jsSpreadOnto (jsSet base k v) rest

/-- JS truthiness of a modelled value. -/
def jsTruthy : JValue → Bool
  | JValue.null => false
  | JValue.bool b => b
  | JValue.num q => decide (q ≠ 0)
  | JValue.str s => s ≠ ""
  | JValue.arr _ => true
  | JValue.obj _ => true

mutual
/-- `isEmptyValue`: null/undefined, blank strings, arrays that are empty
or all-empty, and key-less objects are empty. -/
def isEmptyValue : JValue → Bool
  | JValue.null => true
  | JValue.bool _ => false
  | JValue.num _ => false
  | JValue.str s => strTrim s = ""
  | JValue.arr xs => xs.len = 0 || allEmptyL xs
  | JValue.obj fields => fields.len = 0
termination_by structural v => v

def allEmptyL : JList → Bool
  | JList.nil => true
  | JList.cons v vs => isEmptyValue v && allEmptyL vs
termination_by structural l => l
end

/-- Decimal digit accumulator for `Number(string)`. -/
def digitsToNat (cs : List Char) : ℕ :=
  cs.foldl (fun acc c => acc * 10 + (c.toNat - 48)) 0

/-- `Number(string)` restricted to optionally-signed decimal notation
(`"", "12", "-3.5", "+.25", "7."`); other forms (hex, exponent,
infinities) are modelled as NaN (`none`).  No claim exercises those
forms. -/
def parseDecQ (s : String) : Option ℚ :=
  let t := (strTrim s).data
  if t.isEmpty then some 0
  else
    let signed : ℚ × List Char :=
      match t with
      | '-' :: r => (-1, r)
      | '+' :: r => (1, r)
      | r => (1, r)
    match splitChars (fun c => c = '.') signed.2 with
    | [ip] =>
      if ip.all Char.isDigit ∧ ¬ip.isEmpty then
        some (signed.1 * (digitsToNat ip : ℚ))
      else none
    | [ip, fp] =>
      if ip.all Char.isDigit ∧ fp.all Char.isDigit ∧ ¬(ip.isEmpty ∧ fp.isEmpty) then
        some (signed.1 * ((digitsToNat ip : ℚ) + (digitsToNat fp : ℚ) / ((10 : ℚ) ^ fp.length)))
      else none
    | _ => none

/-- One decimal digit to its character. -/
def digitChar (n : ℕ) : Char := Char.ofNat (48 + n)

/-- Fuel-bounded decimal rendering of a natural number (the fuel `n + 1`
always suffices since the value shrinks by a factor of ten per step). -/
def natDigits : ℕ → ℕ → List Char
  | 0, _ => []
  | f + 1, n => if n < 10 then [digitChar n] else natDigits f (n / 10) ++ [digitChar (n % 10)]

def natToStr (n : ℕ) : String := String.mk (natDigits (n + 1) n)

def intToStr (i : ℤ) : String :=
  if i < 0 then "-" ++ natToStr i.natAbs else natToStr i.natAbs

/-- Decimal rendering of the rationals `String(number)` is applied to in
this model.  Integral values render exactly; non-integral values (which
no claim produces) render as `num/den`. -/
def ratToStr (q : ℚ) : String :=
  if q.den = 1 then intToStr q.num else intToStr q.num ++ "/" ++ natToStr q.den

mutual
/-- `String(value)` for the modelled values (`null` only stands in for a
stringified `null`/`undefined`, which no claim path reaches). -/
def jsToString : JValue → String
  | JValue.null => "null"
  | JValue.bool b => if b then "true" else "false"
  | JValue.num q => ratToStr q
  | JValue.str s => s
  | JValue.arr xs => strIntercalate "," (joinParts xs)
  | JValue.obj _ => "[object Object]"
termination_by structural v => v

/-- `Array.prototype.join` element rendering: null/undefined become the
empty string. -/
def joinParts : JList → List String
  | JList.nil => []
  | JList.cons v t =>
    (match v with
     | JValue.null => ""
     | w => jsToString w) :: joinParts t
termination_by structural l => l
end

mutual
/-- Structural size, used only as fuel for `resolveSchemaDefinition`. -/
def sizeV : JValue → ℕ
  | JValue.arr xs => sizeL xs + 1
  | JValue.obj fs => sizeO fs + 1
  | _ => 1
termination_by structural v => v

def sizeL : JList → ℕ
  | JList.nil => 1
  | JList.cons v t => sizeV v + sizeL t + 1
termination_by structural l => l

def sizeO : JObj → ℕ
  | JObj.nil => 1
  | JObj.cons _ v t => sizeV v + sizeO t + 1
termination_by structural o => o
end

/-- `EMPTY_SCHEMA = { type: "object", properties: {} }`. -/
def EMPTY_SCHEMA : JValue :=
  jobj [("type", JValue.str "object"), ("properties", JValue.obj JObj.nil)]

/-- A field read that only yields truthy values (the `resolved.key`
truthiness tests of `resolveSchemaDefinition`). -/
def truthyField (fields : JFields) (key : String) : Option JValue :=
  match jsGet fields key with
  | some v => if jsTruthy v then some v else none
  | none => none

/-- `resolved.properties ?? {}`. -/
def propsDefault (fields : JFields) : JValue :=
  match jsGet fields "properties" with
  | none => JValue.obj JObj.nil
  | some JValue.null => JValue.obj JObj.nil
  | some p => p

/-- `resolveSchemaDefinition`, written with structural fuel: each
recursive call descends into a strict subvalue, so `sizeV` fuel always
suffices and the zero-fuel branch is unreachable.  The `JSON.parse`
branch for string-encoded schemas is out of the model's scope (modelled
as an unparsable string, which the source maps to the empty schema); no
claim passes a string-encoded schema. -/
def resolveFuel : ℕ → JValue → JValue
  | 0, _ => EMPTY_SCHEMA
  | f + 1, v =>
    match v with
    | JValue.obj fsO =>
      let fs := fsO.toList
      match truthyField fs "inputSchema" with
      | some w => resolveFuel f w
      | none =>
        match truthyField fs "input_schema" with
        | some w => resolveFuel f w
        | none =>
          match truthyField fs "parameters" with
          | some w => resolveFuel f w
          | none =>
            match truthyField fs "schema" with
            | some w => resolveFuel f w
            | none =>
              if (truthyField fs "type").isNone ∧ (truthyField fs "properties").isSome then
                jobj (jsSpreadOnto [("type", JValue.str "object")] fs)
              else if jsGet fs "type" = some (JValue.str "object") ∧
                  (truthyField fs "properties").isNone then
                jobj (jsSet fs "properties" (propsDefault fs))
              else JValue.obj fsO
    | JValue.arr xs => JValue.arr xs
    | _ => EMPTY_SCHEMA

def resolveSchemaDefinition (v : JValue) : JValue := resolveFuel (sizeV v) v

/-- `Object.entries(resolvedSchema.properties)` guarded as in the source
(`properties` must be a truthy object; array-valued `properties` is out
of the model's scope and yields no entries). -/
def schemaProps (schema : JValue) : JFields :=
  match schema with
  | JValue.obj fs =>
    match jsGet fs.toList "properties" with
    | some (JValue.obj ps) => ps.toList
    | _ => []
  | _ => []

/-- `resolvedSchema.required ?? []` (TS types this `string[]`;
non-string members are out of the model's scope and are dropped). -/
def collectStrings : JList → List String
  | JList.nil => []
  | JList.cons (JValue.str s) t => s :: collectStrings t
  | JList.cons _ t => collectStrings t

def requiredOf (schema : JValue) : List String :=
  match schema with
  | JValue.obj fs =>
    match jsGet fs.toList "required" with
    | some (JValue.arr xs) => collectStrings xs
    | _ => []
  | _ => []

/-- `schema?.type`, kept as a JS value so that the strict comparisons
(`=== "array"`, `=== "object"`) and the truthiness guard of
`coerceValue` can be modelled exactly; falsy values read as absent. -/
def typeOf (schema : JValue) : Option JValue :=
  match schema with
  | JValue.obj fs => truthyField fs.toList "type"
  | _ => none

def typeIs (schema : JValue) (t : String) : Bool :=
  typeOf schema = some (JValue.str t)

/-- Truthiness of `schema?.items`. -/
def itemsTruthy (schema : JValue) : Bool :=
  match schema with
  | JValue.obj fs => (truthyField fs.toList "items").isSome
  | _ => false

/-- `schema?.enum` when it is an array (a non-array `enum` would crash
`includes` in the source; out of the model's scope). -/
def enumOf (schema : JValue) : Option JList :=
  match schema with
  | JValue.obj fs =>
    match jsGet fs.toList "enum" with
    | some (JValue.arr xs) => some xs
    | _ => none
  | _ => none

def isArrV : JValue → Bool
  | JValue.arr _ => true
  | _ => false

/-- `Number(value)` over modelled values; `none` is NaN.  Array-to-number
coercion (`Number([]) === 0` and friends) is out of the model's scope:
no claim coerces an array to a number. -/
def jsNumberOf : JValue → Option ℚ
  | JValue.null => some 0
  | JValue.bool b => some (if b then 1 else 0)
  | JValue.num q => some q
  | JValue.str s => parseDecQ s
  | JValue.arr _ => none
  | JValue.obj _ => none

/-- `coerceValue`: permissive coercion to the schema's declared type.
The `JSON.parse` attempt of the `object` case is modelled as a failed
parse (no claim coerces a string to an object). -/
def coerceValue (value : JValue) (schema : JValue) : JValue :=
  if ¬jsTruthy schema ∨ value = JValue.null then value
  else
    match typeOf schema with
    | none => value
    | some ty =>
      if ty = JValue.str "string" then
        match value with
        | JValue.str _ => value
        | v => JValue.str (jsToString v)
      else if ty = JValue.str "number" ∨ ty = JValue.str "integer" then
        match value with
        | JValue.num _ => value
        | v =>
          match jsNumberOf v with
          | some n => JValue.num n
          | none => v
      else if ty = JValue.str "boolean" then
        match value with
        | JValue.bool _ => value
        | JValue.str s =>
          let lo := toLowerStr s
          if lo = "true" ∨ lo = "yes" ∨ lo = "1" then JValue.bool true
          else if lo = "false" ∨ lo = "no" ∨ lo = "0" then JValue.bool false
          else value
        | v => v
      else if ty = JValue.str "array" then
        match value with
        | JValue.arr _ => value
        | JValue.str s =>
          jarr ((((splitStr (fun c => c = ',' ∨ c = ';') s).map strTrim).filter
            (fun x => x ≠ "")).map JValue.str)
        | v => jarr [v]
      else value

/-- `normalizeRecipientValue`: split/trim/lowercase entries, and return
an array when the schema expects one, a comma-joined string otherwise. -/
def normalizeRecipientValue (value : JValue) (schema : JValue) : JValue :=
  let entries : List String :=
    match value with
    | JValue.arr xs =>
      ((xs.toList.map (fun v =>
          toLowerStr (strTrim (if jsTruthy v then jsToString v else "")))).filter
        (fun x => x ≠ ""))
    | JValue.str s =>
      (((splitStr (fun c => c = ',' ∨ c = ';') s).map
          (fun x => toLowerStr (strTrim x))).filter (fun x => x ≠ ""))
    | v =>
      ([toLowerStr (strTrim (if jsTruthy v then jsToString v else ""))].filter
        (fun x => x ≠ ""))
  if (typeIs schema "array" ∨ itemsTruthy schema) ∧ entries.length ≠ 0 then
    jarr (entries.map JValue.str)
  else JValue.str (strIntercalate ", " entries)

/-- `alignValueWithSchema`: coercion, recipient normalization, the
array/string reshaping rules, and the case/format-insensitive enum snap. -/
def alignValueWithSchema (value : JValue) (schemaKey : String) (schema : JValue) : JValue :=
  let c0 := coerceValue value schema
  let c1 :=
    if isRecipientField schemaKey then normalizeRecipientValue c0 schema
    else if typeIs schema "array" ∧ ¬isArrV c0 then coerceValue (jarr [c0]) schema
    else if typeIs schema "string" ∧ isArrV c0 then
      match c0 with
      | JValue.arr xs => JValue.str (strIntercalate ", " (joinParts xs))
      | v => v
    else c0
  match enumOf schema with
  | none => c1
  | some options =>
    if options.toList.contains c1 then c1
    else
      match options.toList.find? (fun o =>
          normalizeFieldName (jsToString o) == normalizeFieldName (jsToString c1)) with
      | some m => m
      | none => c1

/-- `coerceArgsObject`: objects are taken as-is; null/undefined/empty
strings become empty argument sets; any other value is wrapped under the
single or best-named schema property (or `value`). -/
def coerceArgsObject (rawArgs : JValue) (schema : JValue) : JFields :=
  match rawArgs with
  | JValue.obj fs => fs.toList
  | JValue.null => []
  | v =>
    if v = JValue.str "" then []
    else
      let props := (schemaProps schema).map Prod.fst
      if props.length = 0 then [("value", v)]
      else
        let defaultKey :=
          if props.length = 1 then props.headD "value"
          else
            match props.find? (fun k =>
                let lo := toLowerStr k
                hasSubstr lo "text" || hasSubstr lo "body" || hasSubstr lo "message" ||
                hasSubstr lo "query" || hasSubstr lo "input") with
            | some k => k
            | none => props.headD "value"
        [(defaultKey, v)]

/-- `ArgCandidate` from the source. -/
structure ArgCandidate where
  normalizedKey : String
  rawKey : String
  value : JValue
deriving DecidableEq

mutual
/-- The `visit` closure of `buildCandidateMap`: emits the candidate for
the full path, the candidate for the final path segment when it differs,
then recurses into object children in field order. -/
def visitValue (path : String) (v : JValue) : List (String × ArgCandidate) :=
  let nk := normalizeFieldName path
  let lastSeg := (splitStr (fun c => c = '.' ∨ c.isWhitespace) path).getLastD ""
  let extra :=
    if lastSeg ≠ "" ∧ lastSeg ≠ path then
      [(normalizeFieldName lastSeg,
        ArgCandidate.mk (normalizeFieldName lastSeg) path v)]
    else []
  let children :=
    match v with
    | JValue.obj fields => visitChildren path fields
    | _ => []
  ((nk, ArgCandidate.mk nk path v) :: extra) ++ children
termination_by structural v

def visitChildren (path : String) : JObj → List (String × ArgCandidate)
  | JObj.nil => []
  | JObj.cons k v rest =>
    visitValue (if path = "" then k else path ++ "." ++ k) v ++ visitChildren path rest
termination_by structural o => o
end

/-- Candidates of all top-level arguments, in visitation order. -/
def visitAll : JFields → List (String × ArgCandidate)
  | [] => []
  | (k, v) :: rest => visitValue k v ++ visitAll rest

/-- The candidate `Map`, modelled as an insertion-ordered association
list of buckets (JS `Map` iteration follows key insertion order). -/
abbrev CandidateMap := List (String × List ArgCandidate)

def cmInsert (m : CandidateMap) (key : String) (c : ArgCandidate) : CandidateMap :=
  match m with
  | [] => [(key, [c])]
  | (k, bucket) :: rest =>
    if k = key then (k, bucket ++ [c]) :: rest
    else (k, bucket) :: cmInsert rest key c

def insertAll (m : CandidateMap) : List (String × ArgCandidate) → CandidateMap
  | [] => m
  | e :: rest => insertAll (cmInsert m e.1 e.2) rest

/-- `buildCandidateMap`. -/
def buildCandidateMap (args : JFields) : CandidateMap :=
  insertAll [] (visitAll args)

def cmGet : CandidateMap → String → Option (List ArgCandidate)
  | [], _ => none
  | (k, bucket) :: rest, key => if k = key then some bucket else cmGet rest key

/-- `searchCandidate`: the first candidate of the bucket. -/
def searchCandidate (m : CandidateMap) (key : String) : Option ArgCandidate :=
  (cmGet m key).bind List.head?

/-- `Array.from(candidateMap.values()).flat()`. -/
def allCandidates : CandidateMap → List ArgCandidate
  | [] => []
  | (_, bucket) :: rest => bucket ++ allCandidates rest

/-- The first synonym of the concept bucket that has a candidate. -/
def firstSynonym (m : CandidateMap) : List String → Option ArgCandidate
  | [] => none
  | syn :: rest =>
    match searchCandidate m (normalizeFieldName syn) with
    | some c => some c
    | none => firstSynonym m rest

/-- The fuzzy pass: best strict-improvement candidate with Jaccard score
at least 0.6, ties resolved to the first-encountered candidate. -/
def fuzzyBest (schemaKey : String) (cands : List ArgCandidate) : Option ArgCandidate :=
  (cands.foldl (fun best c =>
    let score := tokenSimilarity schemaKey c.normalizedKey
    let better :=
      match best with
      | none => true
      | some p => decide (p.2 < score)
    if (3 : ℚ) / 5 ≤ score ∧ better = true then some (c, score) else best) none).map
    Prod.fst

/-- One schema field's match: exact normalized key, then concept
synonyms, then fuzzy similarity; `none` when unmatched. -/
def matchOne (cmap : CandidateMap) (schemaKey : String) (propSchema : JValue) :
    Option JValue :=
  match searchCandidate cmap (normalizeFieldName schemaKey) with
  | some cand => some (alignValueWithSchema cand.value schemaKey propSchema)
  | none =>
    let viaConcept :=
      match guessConceptForSchemaKey schemaKey with
      | some concept =>
        match synonymsFor concept with
        | some syns => firstSynonym cmap syns
        | none => none
      | none => none
    match viaConcept with
    | some cand => some (alignValueWithSchema cand.value schemaKey propSchema)
    | none =>
      match fuzzyBest schemaKey (allCandidates cmap) with
      | some cand => some (alignValueWithSchema cand.value schemaKey propSchema)
      | none => none

/-- The matching loop over the schema's property entries, building the
`normalized` object by assignment. -/
def matchFieldsAux (cmap : CandidateMap) (acc : JFields) : JFields → JFields
  | [] => acc
  | (schemaKey, propSchema) :: rest =>
    match matchOne cmap schemaKey propSchema with
    | some v => matchFieldsAux cmap (jsSet acc schemaKey v) rest
    | none => matchFieldsAux cmap acc rest

def matchFields (cmap : CandidateMap) (props : JFields) : JFields :=
  matchFieldsAux cmap [] props

/-- The first loop of `sanitizeOptionalFields`: drop empty values,
recording required keys whose value was empty. -/
def sanitizePass (required : List String) : JFields → JFields × List String
  | [] => ([], [])
  | (k, v) :: rest =>
    let r := sanitizePass required rest
    if isEmptyValue v then (r.1, if k ∈ required then k :: r.2 else r.2)
    else ((k, v) :: r.1, r.2)

/-- `sanitizeOptionalFields`: empty fields are dropped; the missing set
is every required key that was dropped or never present, deduplicated in
first-occurrence order. -/
def sanitizeOptionalFields (normalized : JFields) (required : List String) :
    JFields × List String :=
  let p := sanitizePass required normalized
  (p.1, dedupFirst [] (p.2 ++ required.filter (fun r => !jsHasKey p.1 r)))

/-- Resolution of the schema argument: `resolveSchemaDefinition(schema ||
EMPTY_SCHEMA)` (all falsy schemas resolve to the empty schema). -/
def resolvedOf (schemaArg : Option JValue) : JValue :=
  resolveSchemaDefinition (schemaArg.getD JValue.null)

def preparedOf (schemaArg : Option JValue) (rawArgs : JValue) : JFields :=
  coerceArgsObject rawArgs (resolvedOf schemaArg)

/-- The `normalized` object after the matching loop, before
sanitization. -/
def preNormalized (schemaArg : Option JValue) (rawArgs : JValue) : JFields :=
  matchFields (buildCandidateMap (preparedOf schemaArg rawArgs))
    (schemaProps (resolvedOf schemaArg))

/-- The result record of `performNormalization` (the diagnostic `logs`
are not modelled). -/
structure NormResult where
  normalized : JFields
  missingRequired : List String
deriving DecidableEq

/-- `performNormalization`: without schema properties, raw arguments are
cleaned of empty fields and passed through; otherwise each schema field
is matched and aligned, empties are sanitized against the required set,
and raw keys that are not schema keys are merged beneath the
schema-derived values. -/
def performNormalization (schemaArg : Option JValue) (rawArgs : JValue) : NormResult :=
  if (schemaProps (resolvedOf schemaArg)).length = 0 then
    ⟨(preparedOf schemaArg rawArgs).filter (fun kv => !isEmptyValue kv.2), []⟩
  else
    ⟨jsSpreadOnto []
       ((preparedOf schemaArg rawArgs).filter (fun kv =>
          !((schemaProps (resolvedOf schemaArg)).map Prod.fst).contains kv.1 &&
          !isEmptyValue kv.2) ++
        (sanitizeOptionalFields (preNormalized schemaArg rawArgs)
          (requiredOf (resolvedOf schemaArg))).1),
     (sanitizeOptionalFields (preNormalized schemaArg rawArgs)
       (requiredOf (resolvedOf schemaArg))).2⟩

/-- `normalizeMCPArguments`: throws `MissingRequiredFieldsError` (here:
`Except.error` carrying `missingFields`) when any required field is
missing, otherwise returns the normalized arguments. -/
def normalizeMCPArguments (schemaArg : Option JValue) (rawArgs : JValue) :
    Except (List String) JFields :=
  let r := performNormalization schemaArg rawArgs
  if r.missingRequired.length ≠ 0 then Except.error r.missingRequired
  else Except.ok r.normalized

/-- The email-tool schema of the C1/C2 scenarios:
`{recipient_email: string (required), subject: string, body: string (required)}`. -/
def emailSchema : JValue :=
  jobj [("type", JValue.str "object"),
        ("properties",
         jobj [("recipient_email", jobj [("type", JValue.str "string")]),
               ("subject", jobj [("type", JValue.str "string")]),
               ("body", jobj [("type", JValue.str "string")])]),
        ("required", jarr [JValue.str "recipient_email", JValue.str "body"])]

/-- The C1 raw payload `{to: "a@x.com", Subject: "Hi", message: "Hello"}`. -/
def c1raw : JValue :=
  jobj [("to", JValue.str "a@x.com"), ("Subject", JValue.str "Hi"),
        ("message", JValue.str "Hello")]

/-- The C2 raw payload `{subject: "Hi"}`. -/
def c2raw : JValue := jobj [("subject", JValue.str "Hi")]

end MCP

namespace RTC

/-- Server deliveries leading to the C3 counterexample state: a response
is created, audio starts streaming (state `speaking`), the user barges
in (a cancel is issued and becomes pending), and audio keeps streaming
(state `speaking` again while the cancel is still pending). -/
def acts3pre : List Action :=
  [Action.serverAct ServerMsg.responseCreated,
   Action.serverAct (ServerMsg.audioDelta "d1"),
   Action.serverAct ServerMsg.speechStarted,
   Action.serverAct (ServerMsg.audioDelta "d2")]

/-- The C3 counterexample state. -/
def s3 : Client := (run [] connectedX acts3pre).c

/-- A speaking state with an active, uncancelled response (C3 witness). -/
def s3w : Client :=
  (run [] connectedX
    [Action.serverAct ServerMsg.responseCreated,
     Action.serverAct (ServerMsg.audioDelta "d1")]).c

/-- A client that has exhausted its five reconnection attempts. -/
def c4state : Client :=
  { mkClient cfgX true none with reconnectAttempts := 5, wsOpen := true }

/-- A connected client with 2400 samples appended since the last clear. -/
def s5 : Client := (run [] connectedX [Action.sendAudioAct 2400]).c

end RTC

namespace MCP

/-- What `normalizeMCPArguments` actually returns in the C1 scenario:
the three schema-derived bindings plus the three raw keys passed through
(raw keys that are not schema keys are merged into the result). -/
def c1expected : JFields :=
  [("to", JValue.str "a@x.com"), ("Subject", JValue.str "Hi"),
   ("message", JValue.str "Hello"),
   ("recipient_email", JValue.str "a@x.com"),
   ("subject", JValue.str "Hi"), ("body", JValue.str "Hello")]

/-- The result object claim C1 predicts (no other keys). -/
def c1claimed : JFields :=
  [("recipient_email", JValue.str "a@x.com"),
   ("subject", JValue.str "Hi"), ("body", JValue.str "Hello")]

end MCP

deriving instance DecidableEq for Except

section ClaimProofs

attribute [local semireducible] Rat.mul Rat.add Rat.inv Rat.sub

namespace AudioWorklet

theorem ratTrunc_intCast (n : ℤ) : ratTrunc (n : ℚ) = n := by
  unfold ratTrunc
  split
  · exact Int.floor_intCast n
  · rw [← Int.cast_neg, Int.floor_intCast]; omega

theorem toInt16_intCast (n : ℤ) (h1 : -32768 ≤ n) (h2 : n < 32768) :
    toInt16 (n : ℚ) = n := by
  unfold toInt16
  rw [ratTrunc_intCast]
  have h : (n + 32768) % 65536 = n + 32768 := Int.emod_eq_of_lt (by omega) (by omega)
  omega

theorem roundTrip_eq (v : ℤ) :
    roundTrip v = toInt16 (if clamp1 ((v : ℚ) / 32768) < 0
      then clamp1 ((v : ℚ) / 32768) * 32768 else clamp1 ((v : ℚ) / 32768) * 32767) := rfl

theorem roundTrip_nonpos (v : ℤ) (h1 : -32768 ≤ v) (h2 : v ≤ 0) : roundTrip v = v := by
  have hc : (0 : ℚ) < 32768 := by norm_num
  have h1q : (-32768 : ℚ) ≤ (v : ℚ) := by exact_mod_cast h1
  have hle : (-1 : ℚ) ≤ (v : ℚ) / 32768 := by rw [le_div_iff₀ hc]; linarith
  have hub : (v : ℚ) / 32768 ≤ 1 := by
    rw [div_le_one hc]
    have : (v : ℚ) ≤ 0 := by exact_mod_cast h2
    linarith
  have hcl : clamp1 ((v : ℚ) / 32768) = (v : ℚ) / 32768 := by
    unfold clamp1; rw [min_eq_right hub, max_eq_right hle]
  rcases eq_or_lt_of_le h2 with he | hv
  · subst he
    decide
  · have hneg : (v : ℚ) / 32768 < 0 :=
      div_neg_of_neg_of_pos (by exact_mod_cast hv) hc
    rw [roundTrip_eq, hcl, if_pos hneg,
        div_mul_cancel₀ _ (by norm_num : (32768 : ℚ) ≠ 0)]
    exact toInt16_intCast v h1 (by omega)

theorem roundTrip_pos (v : ℤ) (h1 : 0 < v) (h2 : v ≤ 32767) : roundTrip v = v - 1 := by
  have hc : (0 : ℚ) < 32768 := by norm_num
  have h1q : (0 : ℚ) < (v : ℚ) := by exact_mod_cast h1
  have h2q : (v : ℚ) ≤ 32767 := by exact_mod_cast h2
  have hge : (0 : ℚ) ≤ (v : ℚ) / 32768 := by positivity
  have hle : (-1 : ℚ) ≤ (v : ℚ) / 32768 := by linarith
  have hub : (v : ℚ) / 32768 ≤ 1 := by rw [div_le_one hc]; linarith
  have hcl : clamp1 ((v : ℚ) / 32768) = (v : ℚ) / 32768 := by
    unfold clamp1; rw [min_eq_right hub, max_eq_right hle]
  have hfloor : ⌊(v : ℚ) / 32768 * 32767⌋ = v - 1 := by
    rw [Int.floor_eq_iff]
    constructor
    · rw [div_mul_eq_mul_div, le_div_iff₀ hc]; push_cast; linarith
    · rw [div_mul_eq_mul_div, div_lt_iff₀ hc]; push_cast; linarith
  rw [roundTrip_eq, hcl, if_neg (not_lt.2 hge)]
  unfold toInt16 ratTrunc
  rw [if_pos (by positivity : (0 : ℚ) ≤ (v : ℚ) / 32768 * 32767), hfloor]
  have h : (v - 1 + 32768) % 65536 = v - 1 + 32768 := Int.emod_eq_of_lt (by omega) (by omega)
  omega

/-- C7 (amended): decoding a 16-bit sample to `v / 32768` and
re-encoding with clamping and the asymmetric ±32767/−32768 scale
reproduces the sample within ±1 LSB everywhere; the round trip is exact
for every nonpositive sample — in particular for the endpoint −32768 —
while every positive sample (including the endpoint +32767) re-encodes
to `v - 1`. -/
theorem c7_roundtrip :
    (∀ v : ℤ, -32768 ≤ v → v ≤ 32767 → (roundTrip v - v).natAbs ≤ 1) ∧
    (∀ v : ℤ, -32768 ≤ v → v ≤ 0 → roundTrip v = v) ∧
    roundTrip (-32768) = -32768 := by
  refine ⟨?_, roundTrip_nonpos, roundTrip_nonpos (-32768) le_rfl (by norm_num)⟩
  intro v hl hu
  rcases le_or_lt v 0 with h0 | h0
  · rw [roundTrip_nonpos v hl h0]; omega
  · rw [roundTrip_pos v h0 hu]; omega

/-- C7 (counterexample): the positive endpoint is not exact — +32767
decodes to 32767/32768 and re-encodes to 32766. -/
theorem c7_counterexample : roundTrip 32767 = 32766 ∧ roundTrip 32767 ≠ 32767 := by
  decide

/-- C7 (witness). -/
theorem c7_witness :
    (roundTrip 100 - 100).natAbs ≤ 1 ∧ roundTrip (-100) = -100 :=
  ⟨c7_roundtrip.1 100 (by decide) (by decide),
   c7_roundtrip.2.1 (-100) (by decide) (by decide)⟩

/-- C6 (code bug): the carried phase is added to the source position
instead of offsetting it, so chunked resampling diverges from
contiguous resampling.  At ratio 2 (48 kHz → 24 kHz) on the ramp
0..8, the contiguous run samples source positions 0,2,4,6, but chunking
the same signal as [0,1,2] then [3..8] samples positions 0,4,6,8 —
far beyond floating-point tolerance. -/
theorem c6_chunking_divergence :
    (resampleBlock 2 0 ramp9).1 = [some 0, some 2, some 4, some 6] ∧
    (resampleChunks 2 0 [ramp9.take 3, ramp9.drop 3]).1 =
      [some 0, some 4, some 6, some 8] ∧
    (resampleChunks 2 0 [ramp9.take 3, ramp9.drop 3]).1 ≠ (resampleBlock 2 0 ramp9).1 := by
  decide

end AudioWorklet

namespace MCP

/-- C1 (counterexample): on the C1 scenario the normalizer does not
return exactly `{recipient_email, subject, body}` — the unmatched raw
keys `to`, `Subject`, `message` are passed through as well. -/
theorem c1_counterexample :
    normalizeMCPArguments (some emailSchema) c1raw = Except.ok c1expected ∧
    "to" ∈ c1expected.map Prod.fst ∧
    ¬ "to" ∈ c1claimed.map Prod.fst ∧
    normalizeMCPArguments (some emailSchema) c1raw ≠ Except.ok c1claimed := by
  decide

/-- C1 (amended): on the C1 scenario the normalizer succeeds (no
missing-required error) and maps `recipient_email` to `"a@x.com"`
(via the `to` concept synonym), `subject` to `"Hi"` (direct normalized
key match on `Subject`), and `body` to `"Hello"` (via the `message`
concept synonym); in addition the raw keys `to`, `Subject`, `message`
are passed through unchanged, so the full result is `c1expected`. -/
theorem c1_amended :
    normalizeMCPArguments (some emailSchema) c1raw = Except.ok c1expected ∧
    jsGet c1expected "recipient_email" = some (JValue.str "a@x.com") ∧
    jsGet c1expected "subject" = some (JValue.str "Hi") ∧
    jsGet c1expected "body" = some (JValue.str "Hello") := by
  decide

/-- C9: reconciliation is deterministic — `performNormalization` is a
pure function of the schema and the raw payload (the source reads no
ambient state: the candidate `Map` iterates in insertion order and every
traversal is order-fixed), so equal inputs give equal normalized outputs
and equal missing-required sets. -/
theorem c9_deterministic :
    ∀ (schemaArg : Option JValue) (raw1 raw2 : JValue), raw1 = raw2 →
      (performNormalization schemaArg raw1).normalized =
        (performNormalization schemaArg raw2).normalized ∧
      (performNormalization schemaArg raw1).missingRequired =
        (performNormalization schemaArg raw2).missingRequired := by
  intro schemaArg raw1 raw2 h
  cases h
  exact ⟨rfl, rfl⟩

/-- C9 (witness). -/
theorem c9_witness :
    (performNormalization (some emailSchema) c1raw).normalized =
      (performNormalization (some emailSchema) c1raw).normalized ∧
    (performNormalization (some emailSchema) c1raw).missingRequired =
      (performNormalization (some emailSchema) c1raw).missingRequired :=
  c9_deterministic (some emailSchema) c1raw c1raw rfl

end MCP

end ClaimProofs

section ClaimProofsRTC

attribute [local semireducible] Rat.mul Rat.add Rat.inv Rat.sub

namespace RTC

/-- C4 (amended): after an unintentional close the client retries with
exponential backoff — the scheduled delay is `1000ms * 2 ^ attempts`,
the attempt counter increments, and scheduling only happens while fewer
than 5 attempts were made; at the cap nothing further is scheduled, and
nothing is ever scheduled after an intentional close. -/
theorem c4_amended : ∀ (s : Client) (reason : String),
    (s.intentionalClose = true → (handleClose reason s).retryDelayMs = none) ∧
    (s.intentionalClose = false → s.reconnectAttempts < maxReconnectAttempts →
      (handleClose reason s).retryDelayMs =
        some (reconnectDelayMs * 2 ^ s.reconnectAttempts) ∧
      (handleClose reason s).c.reconnectAttempts = s.reconnectAttempts + 1) ∧
    (maxReconnectAttempts ≤ s.reconnectAttempts →
      (handleClose reason s).retryDelayMs = none) := by
  intro s reason
  refine ⟨?_, ?_, ?_⟩
  · intro h
    simp [handleClose, setAgentState, h]
  · intro h hlt
    simp [handleClose, setAgentState, attemptReconnect, h, hlt, Nat.not_le.mpr hlt]
  · intro h
    simp [handleClose, setAgentState, attemptReconnect, h, Nat.not_lt.mpr h]

/-- C4 (counterexample): at the attempt cap, the close handler stops
retrying but emits no error event at all — there is no terminal
connectivity error, only a console log (the emitted events are
`disconnected` and `agent_state idle`). -/
theorem c4_counterexample :
    c4state.intentionalClose = false ∧
    c4state.reconnectAttempts = maxReconnectAttempts ∧
    (handleClose "code:1006" c4state).retryDelayMs = none ∧
    (handleClose "code:1006" c4state).evs.countP isErrorEv = 0 := by
  decide

/-- C4 (witness). -/
theorem c4_witness :
    (handleClose "bye" (mkClient cfgX true none)).retryDelayMs =
      some (reconnectDelayMs * 2 ^ (mkClient cfgX true none).reconnectAttempts) ∧
    (handleClose "bye" (disconnect (mkClient cfgX true none))).retryDelayMs = none :=
  ⟨((c4_amended (mkClient cfgX true none) "bye").2.1 (by decide) (by decide)).1,
   (c4_amended (disconnect (mkClient cfgX true none)) "bye").1 (by decide)⟩

/-- C3 (amended): a speech-started event received while the agent is
`speaking` with interruptions allowed always emits an `interruption`
event, and issues exactly one response-cancel request provided a
response is active, no cancel is already pending, and the socket is
open; the subscriber stops local playback on the accompanying
`listening` state transition.  With interruptions disabled, no cancel is
issued. -/
theorem c3_amended : ∀ s : Client, s.agentState = AgentSt.speaking →
    ((s.allowInterruptions = true ∧ 0 < s.activeResponseCount ∧
      s.cancelPending = false ∧ s.wsOpen = true) →
      (handleServerMessage s ServerMsg.speechStarted).msgs.countP isCancelMsg = 1 ∧
      REvent.interruptionEv ∈ (handleServerMessage s ServerMsg.speechStarted).evs ∧
      uiStopsPlayback (handleServerMessage s ServerMsg.speechStarted).evs = true) ∧
    (s.allowInterruptions = false →
      (handleServerMessage s ServerMsg.speechStarted).msgs.countP isCancelMsg = 0) := by
  intro s hsp
  obtain ⟨ws, cfg, ra, ast, ic, hba, bs, hra, sus, pc, ot, arc, cp, ai⟩ := s
  simp only [Client.mk.injEq] at hsp
  subst hsp
  constructor
  · rintro ⟨ha, hc, hp, hw⟩
    simp only at ha hc hp hw
    subst ha
    subst hp
    subst hw
    simp [handleServerMessage, cancelResponse, setAgentState, send,
      uiStopsPlayback, not_le.mpr hc]
    all_goals decide
  · intro ha
    simp only at ha
    subst ha
    simp [handleServerMessage, setAgentState, send, uiStopsPlayback]

/-- C3 (counterexample): in the reachable state `s3` — reached by
response-created, audio delta, a first barge-in (cancel becomes
pending), then more audio (state `speaking` again) — a further
speech-started event while `speaking` with interruptions allowed emits
`interruption` but issues zero response-cancel requests: the pending
cancel suppresses the duplicate.  The claim's "exactly one cancel
request" therefore does not hold universally. -/
theorem c3_counterexample :
    s3.agentState = AgentSt.speaking ∧
    s3.allowInterruptions = true ∧
    s3.cancelPending = true ∧
    (handleServerMessage s3 ServerMsg.speechStarted).msgs.countP isCancelMsg = 0 ∧
    REvent.interruptionEv ∈ (handleServerMessage s3 ServerMsg.speechStarted).evs := by
  decide

/-- C3 (witness). -/
theorem c3_witness :
    (handleServerMessage s3w ServerMsg.speechStarted).msgs.countP isCancelMsg = 1 ∧
    REvent.interruptionEv ∈ (handleServerMessage s3w ServerMsg.speechStarted).evs ∧
    uiStopsPlayback (handleServerMessage s3w ServerMsg.speechStarted).evs = true :=
  (c3_amended s3w (by decide)).1 (by decide)

lemma server_facts : ∀ (s : Client) (m : ServerMsg),
    ((handleServerMessage s m).c.bufferedSamples ≤ s.bufferedSamples) ∧
    ((handleServerMessage s m).msgs.countP isCommitMsg = 0) ∧
    (s.sessionUpdateSent = true → (handleServerMessage s m).c.sessionUpdateSent = true ∧
      (handleServerMessage s m).msgs.countP isSessionUpdateMsg = 0) ∧
    (0 ≤ s.activeResponseCount → 0 ≤ (handleServerMessage s m).c.activeResponseCount) := by
  intro s m
  cases m <;>
    simp [handleServerMessage, setAgentState, cancelResponse, send,
      markResponseCreated, markResponseFinished, isCommitMsg, isSessionUpdateMsg,
      List.countP_cons, List.countP_nil, List.countP_append] <;>
    (repeat' split) <;>
    simp_all [isCommitMsg, isSessionUpdateMsg, List.countP_cons, List.countP_nil] <;>
    omega

lemma step_facts : ∀ (reg : List String) (s : Client) (a : Action),
    ((step reg s a).c.bufferedSamples ≤ s.bufferedSamples + appendSize a) ∧
    (s.bufferedSamples < 2400 → (step reg s a).msgs.countP isCommitMsg = 0) ∧
    (s.sessionUpdateSent = true → (step reg s a).c.sessionUpdateSent = true ∧
      (step reg s a).msgs.countP isSessionUpdateMsg = 0) ∧
    (0 ≤ s.activeResponseCount → 0 ≤ (step reg s a).c.activeResponseCount) := by
  intro reg s a
  cases a with
  | serverAct m =>
    have h := server_facts s m
    simp only [step, appendSize]
    exact ⟨by omega, fun _ => h.2.1, h.2.2.1, h.2.2.2⟩
  | _ =>
    simp [step, sendAudio, commitAudio, clearAudioBuffer, cancelResponse,
      requestResponse, sendFunctionCallOutput, sendSessionUpdate,
      updateSessionConfig, setAgentState, send, appendSize,
      isCommitMsg, isSessionUpdateMsg,
      List.countP_cons, List.countP_nil, List.countP_append] <;>
    (repeat' split) <;>
    simp_all [isCommitMsg, isSessionUpdateMsg, List.countP_cons, List.countP_nil,
      List.countP_append, send]

lemma run_commit_zero : ∀ (reg : List String) (acts : List Action) (s : Client),
    s.bufferedSamples + appendTotal acts < 2400 →
    (run reg s acts).msgs.countP isCommitMsg = 0 := by
  intro reg acts
  induction acts with
  | nil => intro s _; simp [run]
  | cons a rest ih =>
    intro s h
    have hf := step_facts reg s a
    simp only [run, List.countP_append, appendTotal] at h ⊢
    have h1 : (step reg s a).msgs.countP isCommitMsg = 0 := hf.2.1 (by omega)
    have h2 : (run reg (step reg s a).c rest).msgs.countP isCommitMsg = 0 :=
      ih (step reg s a).c (by have := hf.1; omega)
    omega

lemma run_su_zero : ∀ (reg : List String) (acts : List Action) (s : Client),
    s.sessionUpdateSent = true →
    (run reg s acts).msgs.countP isSessionUpdateMsg = 0 := by
  intro reg acts
  induction acts with
  | nil => intro s _; simp [run]
  | cons a rest ih =>
    intro s h
    have hf := (step_facts reg s a).2.2.1 h
    simp only [run, List.countP_append]
    have h2 := ih (step reg s a).c hf.1
    omega

lemma run_count_nonneg : ∀ (reg : List String) (acts : List Action) (s : Client),
    0 ≤ s.activeResponseCount →
    0 ≤ (run reg s acts).c.activeResponseCount := by
  intro reg acts
  induction acts with
  | nil => intro s h; simpa [run] using h
  | cons a rest ih =>
    intro s h
    exact ih (step reg s a).c ((step_facts reg s a).2.2.2 h)

/-- C5: `commitAudio` emits the `input_audio_buffer.commit` message
exactly when audio has been buffered, at least 2400 samples are pending,
and audio has been received since the last clear (on an open socket);
without the gate no commit is ever sent, and over any action sequence
whose appends total fewer than 2400 samples — commits, clears and server
events included — no commit message is ever emitted. -/
theorem c5_commit_gating :
    (∀ s : Client, s.wsOpen = true →
      ((commitAudio s).msgs.countP isCommitMsg = 1 ↔
        (s.hasBufferedAudio = true ∧ 2400 ≤ s.bufferedSamples ∧
         s.hasReceivedAudio = true))) ∧
    (∀ s : Client, (commitAudio s).msgs.countP isCommitMsg = 0 ∨
      (s.hasBufferedAudio = true ∧ 2400 ≤ s.bufferedSamples ∧
       s.hasReceivedAudio = true)) ∧
    (∀ (reg : List String) (s : Client) (acts : List Action),
      s.bufferedSamples = 0 → appendTotal acts < 2400 →
      (run reg s acts).msgs.countP isCommitMsg = 0) := by
  refine ⟨?_, ?_, ?_⟩
  · intro s hw
    unfold commitAudio
    split
    · rename_i hcond
      simp only [List.countP_nil]
      constructor
      · intro h; omega
      · rintro ⟨h1, h2, h3⟩
        rcases hcond with h | h | h
        · rw [h1] at h; cases h
        · omega
        · rw [h3] at h; cases h
    · rename_i hcond
      push_neg at hcond
      simp [send, hw, isCommitMsg]
      simp [Bool.not_eq_false] at hcond
      exact ⟨hcond.1, by omega, hcond.2.2⟩
  · intro s
    unfold commitAudio
    split
    · left; simp
    · rename_i hcond
      push_neg at hcond
      right
      simp [Bool.not_eq_false] at hcond
      exact ⟨hcond.1, by omega, hcond.2.2⟩
  · intro reg s acts h1 h2
    exact run_commit_zero reg acts s (by omega)

/-- C5 (witness). -/
theorem c5_witness :
    (commitAudio s5).msgs.countP isCommitMsg = 1 ∧
    (run [] connectedX [Action.sendAudioAct 1000,
      Action.commitAudioAct]).msgs.countP isCommitMsg = 0 :=
  ⟨(c5_commit_gating.1 s5 (by decide)).mpr (by decide),
   c5_commit_gating.2.2 [] connectedX _ (by decide) (by decide)⟩

/-- C8: opening a fresh connection sends exactly one session-update
message, whose payload carries the configured voice, the
deterministically augmented instructions (language-consistency directive
always, fallback-refusal directive exactly in guardrail mode), the fixed
transcription settings, the turn-detection policy (config or server-VAD
default), and the current tool schema list; any later attempt on the
same connection — direct, or via `updateSessionConfig`, or any other
action — sends no further session update. -/
theorem c8_session_update_once :
    (∀ (reg : List String) (s : Client),
      (handleOpen reg (connectReset s)).msgs =
        [OutMsg.sessionUpdate (mkSessionPayload s.config (s.overrideTools.getD reg))] ∧
      (handleOpen reg (connectReset s)).c.sessionUpdateSent = true) ∧
    (∀ (cfg : RealtimeConfig) (tools : List String),
      (mkSessionPayload cfg tools).voice = cfg.voice ∧
      (mkSessionPayload cfg tools).instructions = augmentInstructions cfg ∧
      (mkSessionPayload cfg tools).tools = tools ∧
      (mkSessionPayload cfg tools).turnDetection = cfg.turnDetection.getD defaultTurnDetection ∧
      (mkSessionPayload cfg tools).transcriptionModel = "gpt-4o-transcribe") ∧
    (∀ cfg : RealtimeConfig, cfg.ragMode = some RagMode.guardrail →
      augmentInstructions cfg =
        cfg.instructions ++ "\n\n" ++ guardrailDirective ++ "\n\n" ++ languageGuard) ∧
    (∀ cfg : RealtimeConfig, cfg.ragMode ≠ some RagMode.guardrail →
      augmentInstructions cfg = cfg.instructions ++ "\n\n" ++ languageGuard) ∧
    (∀ (reg : List String) (s : Client), s.sessionUpdateSent = true →
      sendSessionUpdate reg s = ⟨s, [], []⟩) ∧
    (∀ (reg : List String) (s : Client) (acts : List Action),
      s.sessionUpdateSent = true →
      (run reg s acts).msgs.countP isSessionUpdateMsg = 0) := by
  refine ⟨?_, ?_, ?_, ?_, ?_, ?_⟩
  · intro reg s
    simp [handleOpen, sendSessionUpdate, connectReset, send]
  · intro cfg tools
    simp [mkSessionPayload]
  · intro cfg h
    simp [augmentInstructions, h]
  · intro cfg h
    simp [augmentInstructions, h]
  · intro reg s h
    simp [sendSessionUpdate, h]
  · intro reg s acts h
    exact run_su_zero reg acts s h

/-- C8 (witness). -/
theorem c8_witness :
    augmentInstructions cfgX = cfgX.instructions ++ "\n\n" ++ languageGuard ∧
    sendSessionUpdate [] connectedX = ⟨connectedX, [], []⟩ ∧
    (run [] connectedX [Action.sendSessionUpdateAct,
      Action.updateSessionConfigAct cfgX]).msgs.countP isSessionUpdateMsg = 0 :=
  ⟨c8_session_update_once.2.2.2.1 cfgX (by decide),
   c8_session_update_once.2.2.2.2.1 [] connectedX (by decide),
   c8_session_update_once.2.2.2.2.2 [] connectedX _ (by decide)⟩

/-- C10: the active-response counter is non-negative in every state
reachable from a fresh client; response-finished handling clamps the
decrement at zero; and `cancelResponse` with no active response, or with
a cancel already pending, sends nothing and leaves the entire state
unchanged. -/
theorem c10_response_counter :
    (∀ (reg : List String) (cfg : RealtimeConfig) (allow : Bool)
       (tools : Option (List String)) (acts : List Action),
      0 ≤ (run reg (mkClient cfg allow tools) acts).c.activeResponseCount) ∧
    (∀ (reg : List String) (acts : List Action) (s : Client),
      0 ≤ s.activeResponseCount → 0 ≤ (run reg s acts).c.activeResponseCount) ∧
    (∀ s : Client, s.activeResponseCount = 0 →
      (markResponseFinished s).activeResponseCount = 0) ∧
    (∀ s : Client, 0 ≤ (markResponseFinished s).activeResponseCount) ∧
    (∀ (s : Client) (b : Bool), s.activeResponseCount ≤ 0 →
      cancelResponse b s = ⟨s, [], []⟩) ∧
    (∀ (s : Client) (b : Bool), s.cancelPending = true →
      cancelResponse b s = ⟨s, [], []⟩) := by
  refine ⟨?_, run_count_nonneg, ?_, ?_, ?_, ?_⟩
  · intro reg cfg allow tools acts
    exact run_count_nonneg reg acts (mkClient cfg allow tools) (by simp [mkClient])
  · intro s h
    simp [markResponseFinished, h]
  · intro s
    simp [markResponseFinished]
  · intro s b h
    unfold cancelResponse
    rw [if_pos h]
  · intro s b h
    unfold cancelResponse
    split <;> simp [h]

/-- C10 (witness). -/
theorem c10_witness :
    0 ≤ (run [] (mkClient cfgX true none) acts3pre).c.activeResponseCount ∧
    cancelResponse false (mkClient cfgX true none) = ⟨mkClient cfgX true none, [], []⟩ ∧
    cancelResponse false s3 = ⟨s3, [], []⟩ :=
  ⟨c10_response_counter.1 [] cfgX true none acts3pre,
   c10_response_counter.2.2.2.2.1 (mkClient cfgX true none) false (by decide),
   c10_response_counter.2.2.2.2.2 s3 false (by decide)⟩

end RTC

end ClaimProofsRTC

section ClaimProofsMCP
attribute [local semireducible] Rat.mul Rat.add Rat.inv Rat.sub

namespace MCP

lemma mem_dedupFirst : ∀ (l seen : List String) (a : String),
    a ∈ l → ¬ a ∈ seen → a ∈ dedupFirst seen l := by
  intro l
  induction l with
  | nil => intro seen a h _; cases h
  | cons x xs ih =>
    intro seen a hmem hseen
    unfold dedupFirst
    rcases eq_or_ne a x with rfl | hne
    · split
      · rename_i hcont
        exact absurd hcont hseen
      · exact List.mem_cons_self _ _
    · have hxs : a ∈ xs := by
        rcases List.mem_cons.mp hmem with h | h
        · exact absurd h hne
        · exact h
      split
      · exact ih seen a hxs hseen
      · refine List.mem_cons_of_mem _ (ih (x :: seen) a hxs ?_)
        intro hm
        rcases List.mem_cons.mp hm with h | h
        · exact hne h
        · exact hseen h

lemma jsGet_sanitizePass_none : ∀ (norm : JFields) (required : List String) (r : String),
    jsGet norm r = none → jsGet (sanitizePass required norm).1 r = none := by
  intro norm required r
  induction norm with
  | nil => intro _; rfl
  | cons kv rest ih =>
    intro h
    obtain ⟨k, v⟩ := kv
    unfold jsGet at h
    by_cases hk : k = r
    · rw [if_pos hk] at h; cases h
    · rw [if_neg hk] at h
      unfold sanitizePass
      split
      · exact ih h
      · unfold jsGet
        rw [if_neg hk]
        exact ih h

lemma mem_sanitizePass_missing : ∀ (norm : JFields) (required : List String)
    (r : String) (v : JValue),
    r ∈ required → jsGet norm r = some v → isEmptyValue v = true →
    r ∈ (sanitizePass required norm).2 := by
  intro norm required r v hreq
  induction norm with
  | nil => intro h _; cases h
  | cons kv rest ih =>
    intro hg hv
    obtain ⟨k, w⟩ := kv
    unfold jsGet at hg
    by_cases hk : k = r
    · rw [if_pos hk] at hg
      injection hg with hw
      subst hw
      subst hk
      unfold sanitizePass
      rw [if_pos hv, if_pos hreq]
      exact List.mem_cons_self _ _
    · rw [if_neg hk] at hg
      unfold sanitizePass
      split
      · split
        · exact List.mem_cons_of_mem _ (ih hg hv)
        · exact ih hg hv
      · exact ih hg hv

lemma sanitize_missing_of_empty (norm : JFields) (required : List String) (r : String)
    (hreq : r ∈ required)
    (he : isEmptyValue (jsGetD norm r JValue.null) = true) :
    r ∈ (sanitizeOptionalFields norm required).2 := by
  unfold sanitizeOptionalFields
  cases hg : jsGet norm r with
  | none =>
    apply mem_dedupFirst _ _ _ ?_ (by simp)
    refine List.mem_append.mpr (Or.inr ?_)
    refine List.mem_filter.mpr ⟨hreq, ?_⟩
    simp [jsHasKey, jsGet_sanitizePass_none norm required r hg]
  | some v =>
    have hv : isEmptyValue v = true := by
      rw [jsGetD, hg] at he; exact he
    apply mem_dedupFirst _ _ _ ?_ (by simp)
    exact List.mem_append.mpr
      (Or.inl (mem_sanitizePass_missing norm required r v hreq hg hv))

lemma performNormalization_of_props (schemaArg : Option JValue) (raw : JValue)
    (h : (schemaProps (resolvedOf schemaArg)).length ≠ 0) :
    (performNormalization schemaArg raw).missingRequired =
      (sanitizeOptionalFields (preNormalized schemaArg raw)
        (requiredOf (resolvedOf schemaArg))).2 := by
  unfold performNormalization
  rw [if_neg h]

/-- C2: whenever the resolved schema declares properties, any required
field whose matched value is empty — or that was never matched at all
(reads as `null`) — makes `normalizeMCPArguments` fail with a
missing-required-fields error that names that field (hence every such
field); in the scenario with the email schema and raw input
`{subject: "Hi"}`, the error names exactly `recipient_email` and `body`. -/
theorem c2_missing_required :
    (∀ (schemaArg : Option JValue) (rawArgs : JValue) (r : String),
      (schemaProps (resolvedOf schemaArg)).length ≠ 0 →
      r ∈ requiredOf (resolvedOf schemaArg) →
      isEmptyValue (jsGetD (preNormalized schemaArg rawArgs) r JValue.null) = true →
      r ∈ (performNormalization schemaArg rawArgs).missingRequired ∧
      normalizeMCPArguments schemaArg rawArgs =
        Except.error (performNormalization schemaArg rawArgs).missingRequired) ∧
    normalizeMCPArguments (some emailSchema) c2raw =
      Except.error ["recipient_email", "body"] := by
  constructor
  · intro schemaArg rawArgs r hp hreq he
    have hm : r ∈ (performNormalization schemaArg rawArgs).missingRequired := by
      rw [performNormalization_of_props schemaArg rawArgs hp]
      exact sanitize_missing_of_empty _ _ _ hreq he
    refine ⟨hm, ?_⟩
    unfold normalizeMCPArguments
    rw [if_pos ?_]
    intro h0
    exact List.ne_nil_of_mem hm (List.length_eq_zero.mp h0)
  · decide

theorem c2_witness :
    "recipient_email" ∈ (performNormalization (some emailSchema) c2raw).missingRequired ∧
    normalizeMCPArguments (some emailSchema) c2raw =
      Except.error (performNormalization (some emailSchema) c2raw).missingRequired :=
  c2_missing_required.1 (some emailSchema) c2raw "recipient_email"
    (by decide) (by decide) (by decide)

end MCP
end ClaimProofsMCP
